import Mathlib

/-!
Verification of the `python_design_pattern` repository.

The repository contains two pieces with observable semantics:

* `creational_patterns/singleton/naiveSingleton.py`: a metaclass `Singleton`
  holding a class-level dictionary `_instance` mapping each class that uses the
  metaclass to its unique constructed instance.  `Singleton.__call__` looks the
  class up in the dictionary; on a miss it invokes the real constructor
  (`super(Singleton, self).__call__(*args, **kwds)`), stores the result under
  the class, and returns it; on a hit it returns the stored instance,
  discarding the call's arguments.

* `creational_patterns/factory_method/src/factory_method.py`: two concrete
  factories `FiatCurrencyFactory` and `VirtualCurrencyFactory`, whose
  `create_country` methods are straight-line conditional maps from a country
  name to a currency string, reading and writing no state.

The embedding below models Python object identity by tagging each constructed
instance with the class that built it and a fresh allocation number (`id()`),
and models constructor side effects by a log of the classes whose constructor
ran to completion.  A constructor's own argument validation is a parameter
`ctorErr`: `ctorErr cls args = some e` means the underlying constructor of
`cls` raises error `e` on `args`, `none` means it succeeds.
-/

/-- A class identity: the key of `Singleton._instance` (the class object). -/
abbrev ClassId := String

/-- Constructor arguments (`*args, **kwds`), opaque to the registry. -/
abbrev Args := List Nat

/-- A constructed Python object: the class that constructed it together with a
fresh allocation number standing for the CPython `id()`. -/
structure Instance where
  cls : ClassId
  objId : Nat
deriving DecidableEq, Repr

/-- The process state: the metaclass dictionary `Singleton._instance`
(an association list from class identity to its stored instance), the
allocator for fresh object identities, and the log of classes whose underlying
constructor ran to completion (one entry per successful construction). -/
structure PState where
  _instance : List (ClassId × Instance)
  nextId : Nat
  constructedLog : List ClassId
deriving DecidableEq, Repr

/-- The state at interpreter start: `_instance = {}` is empty, nothing has
been constructed. -/
def initState : PState := ⟨[], 0, []⟩

/-- Dictionary lookup `self._instance[self]` / membership `self in self._instance`
on the association list. -/
def lookupReg (reg : List (ClassId × Instance)) (k : ClassId) : Option Instance :=
  match reg with
  | [] => none
  | (k1, v) :: rest => if k1 = k then some v else lookupReg rest k

/-- The real constructor, `super(Singleton, self).__call__(*args, **kwds)`:
if the class's own constructor rejects the arguments the error is raised and
the state is unchanged; otherwise a fresh instance of the class is allocated
and the successful construction is logged. -/
def type_call (ctorErr : ClassId → Args → Option String) (cls : ClassId)
    (args : Args) (s : PState) : Except String Instance × PState :=
  match ctorErr cls args with
  | some e => (Except.error e, s)
  | none =>
      (Except.ok ⟨cls, s.nextId⟩,
        ⟨s._instance, s.nextId + 1, s.constructedLog ++ [cls]⟩)

/-- `Singleton.__call__`: if the class is absent from `_instance`, invoke the
real constructor and store the result under the class (skipped when the
constructor raises, since the dictionary assignment never executes); then
return the stored instance. -/
def Singleton.call (ctorErr : ClassId → Args → Option String) (cls : ClassId)
    (args : Args) (s : PState) : Except String Instance × PState :=
  match lookupReg s._instance cls with
  | some inst => (Except.ok inst, s)
  | none =>
      match type_call ctorErr cls args s with
      | (Except.ok inst, s1) =>
          (Except.ok inst, ⟨s1._instance ++ [(cls, inst)], s1.nextId, s1.constructedLog⟩)
      | (Except.error e, s1) => (Except.error e, s1)

/-- One construction request arriving at the metaclass. -/
structure CallEvent where
  cls : ClassId
  args : Args
deriving DecidableEq, Repr

/-- Run a sequence of construction requests through the process state.  A
raised constructor error leaves the state as `Singleton.call` returned it
(unchanged) and the process continues with the next request. -/
def runCalls (ctorErr : ClassId → Args → Option String) :
    List CallEvent → PState → PState
  | [], s => s
  | e :: rest, s => runCalls ctorErr rest (Singleton.call ctorErr e.cls e.args s).2

/-- The example class of `naiveSingleton.py`.  Its constructor is the default
`object.__init__`, which accepts only an empty argument list and raises a
`TypeError` otherwise. -/
def NetworkDriver.classId : ClassId := "NetworkDriver"

/-- The constructor behaviour of the repository's classes: `NetworkDriver`
declares no `__init__`, so the default constructor raises a `TypeError` on any
arguments and succeeds on none. -/
def defaultCtorErr : ClassId → Args → Option String :=
  fun _ args => match args with
    | [] => none
    | _ :: _ => some "TypeError"

/-- `FiatCurrencyFactory.create_country`: the conditional chain mapping a
country name to its fiat currency code. -/
def FiatCurrencyFactory.create_country (country : String) : String :=
  if country = "USA" then "USD"
  else if country = "Spain" then "EUR"
  else if country = "Japan" then "JPY"
  else "Unknown Country"

/-- `VirtualCurrencyFactory.create_country`: the conditional chain mapping a
country name to its virtual currency name. -/
def VirtualCurrencyFactory.create_country (country : String) : String :=
  if country = "USA" then "Bitcoin"
  else if country = "Spain" then "Ethereum"
  else if country = "Japan" then "Dogecoin"
  else "Unknown Country"

/-- A factory method invocation threaded through the process state, in order
to state that the method neither reads nor writes shared state: the body of
`FiatCurrencyFactory.create_country` mentions only its `country` argument. -/
def FiatCurrencyFactory.invoke (country : String) (s : PState) : String × PState :=
  (FiatCurrencyFactory.create_country country, s)

/-- `VirtualCurrencyFactory.create_country` threaded through the process
state; its body likewise mentions only its `country` argument. -/
def VirtualCurrencyFactory.invoke (country : String) (s : PState) : String × PState :=
  (VirtualCurrencyFactory.create_country country, s)

/-! ### Basic lookup lemmas -/

theorem lookupReg_append_left {l1 l2 : List (ClassId × Instance)} {k : ClassId}
    {v : Instance} (h : lookupReg l1 k = some v) :
    lookupReg (l1 ++ l2) k = some v := by
  induction l1 with
  | nil => simp [lookupReg] at h
  | cons p rest ih =>
      obtain ⟨k1, v1⟩ := p
      by_cases hk : k1 = k
      · simp [lookupReg, hk] at h ⊢
        exact h
      · simp [lookupReg, hk] at h ⊢
        exact ih h

theorem lookupReg_append_right {l1 : List (ClassId × Instance)} {k : ClassId}
    (h : lookupReg l1 k = none) (l2 : List (ClassId × Instance)) :
    lookupReg (l1 ++ l2) k = lookupReg l2 k := by
  induction l1 with
  | nil => simp
  | cons p rest ih =>
      obtain ⟨k1, v1⟩ := p
      by_cases hk : k1 = k
      · simp [lookupReg, hk] at h
      · simp [lookupReg, hk] at h ⊢
        exact ih h

theorem lookupReg_mem {l : List (ClassId × Instance)} {k : ClassId} {v : Instance}
    (h : lookupReg l k = some v) : (k, v) ∈ l := by
  induction l with
  | nil => simp [lookupReg] at h
  | cons p rest ih =>
      obtain ⟨k1, v1⟩ := p
      by_cases hk : k1 = k
      · subst hk
        simp [lookupReg] at h
        subst h
        exact List.mem_cons_self _ _
      · simp [lookupReg, hk] at h
        exact List.mem_cons_of_mem _ (ih h)

/-! ### Step lemmas about `Singleton.call` -/

theorem singleton_call_hit {ctorErr : ClassId → Args → Option String}
    {cls : ClassId} (args : Args) {s : PState} {inst : Instance}
    (h : lookupReg s._instance cls = some inst) :
    Singleton.call ctorErr cls args s = (Except.ok inst, s) := by
  simp [Singleton.call, h]

theorem singleton_call_miss_ok {ctorErr : ClassId → Args → Option String}
    {cls : ClassId} {args : Args} {s : PState}
    (habs : lookupReg s._instance cls = none)
    (hok : ctorErr cls args = none) :
    Singleton.call ctorErr cls args s
      = (Except.ok ⟨cls, s.nextId⟩,
         ⟨s._instance ++ [(cls, ⟨cls, s.nextId⟩)], s.nextId + 1,
          s.constructedLog ++ [cls]⟩) := by
  simp [Singleton.call, type_call, habs, hok]

theorem singleton_call_miss_err {ctorErr : ClassId → Args → Option String}
    {cls : ClassId} {args : Args} {s : PState} {e : String}
    (habs : lookupReg s._instance cls = none)
    (herr : ctorErr cls args = some e) :
    Singleton.call ctorErr cls args s = (Except.error e, s) := by
  simp [Singleton.call, type_call, habs, herr]

theorem singleton_call_ok_lookup {ctorErr : ClassId → Args → Option String}
    {cls : ClassId} {args : Args} {s s1 : PState} {inst : Instance}
    (h : Singleton.call ctorErr cls args s = (Except.ok inst, s1)) :
    lookupReg s1._instance cls = some inst := by
  rcases h1 : lookupReg s._instance cls with _ | inst0
  · rcases h2 : ctorErr cls args with _ | e
    · rw [singleton_call_miss_ok h1 h2] at h
      obtain ⟨hi, hs⟩ := Prod.mk.injEq .. ▸ h
      cases hi
      cases hs
      simp [lookupReg_append_right h1, lookupReg]
    · rw [singleton_call_miss_err h1 h2] at h
      simp at h
  · rw [singleton_call_hit args h1] at h
    obtain ⟨hi, hs⟩ := Prod.mk.injEq .. ▸ h
    cases hi
    cases hs
    exact h1

theorem singleton_call_preserves_lookup {ctorErr : ClassId → Args → Option String}
    {cls : ClassId} {args : Args} {s : PState} {k : ClassId} {v : Instance}
    (h : lookupReg s._instance k = some v) :
    lookupReg (Singleton.call ctorErr cls args s).2._instance k = some v := by
  rcases h1 : lookupReg s._instance cls with _ | inst0
  · rcases h2 : ctorErr cls args with _ | e
    · rw [singleton_call_miss_ok h1 h2]
      exact lookupReg_append_left h
    · rw [singleton_call_miss_err h1 h2]
      exact h
  · rw [singleton_call_hit args h1]
    exact h

theorem runCalls_preserves_lookup (ctorErr : ClassId → Args → Option String)
    (events : List CallEvent) {s : PState} {k : ClassId} {v : Instance}
    (h : lookupReg s._instance k = some v) :
    lookupReg (runCalls ctorErr events s)._instance k = some v := by
  induction events generalizing s with
  | nil => exact h
  | cons e rest ih =>
      exact ih (singleton_call_preserves_lookup h)

/-! ### State invariants -/

/-- Key-value consistency of `Singleton._instance`: every stored instance was
built by the constructor of the class it is stored under. -/
def RegConsistent (s : PState) : Prop :=
  ∀ p ∈ s._instance, (p : ClassId × Instance).2.cls = p.1

/-- The construction log matches the registry: a class has been successfully
constructed exactly once if it is registered, never otherwise. -/
def LogSync (s : PState) : Prop :=
  ∀ k : ClassId, s.constructedLog.count k
    = if (lookupReg s._instance k).isSome then 1 else 0

theorem regConsistent_init : RegConsistent initState := by
  intro p hp
  simp [initState] at hp

theorem logSync_init : LogSync initState := by
  intro k
  simp [initState, lookupReg]

theorem regConsistent_call {ctorErr : ClassId → Args → Option String}
    {cls : ClassId} {args : Args} {s : PState} (hs : RegConsistent s) :
    RegConsistent (Singleton.call ctorErr cls args s).2 := by
  rcases h1 : lookupReg s._instance cls with _ | inst0
  · rcases h2 : ctorErr cls args with _ | e
    · rw [singleton_call_miss_ok h1 h2]
      intro p hp
      rcases List.mem_append.mp hp with hmem | hmem
      · exact hs p hmem
      · simp at hmem
        subst hmem
        rfl
    · rw [singleton_call_miss_err h1 h2]
      exact hs
  · rw [singleton_call_hit args h1]
    exact hs

theorem regConsistent_runCalls (ctorErr : ClassId → Args → Option String)
    (events : List CallEvent) {s : PState} (hs : RegConsistent s) :
    RegConsistent (runCalls ctorErr events s) := by
  induction events generalizing s with
  | nil => exact hs
  | cons e rest ih => exact ih (regConsistent_call hs)

theorem logSync_call {ctorErr : ClassId → Args → Option String}
    {cls : ClassId} {args : Args} {s : PState} (hs : LogSync s) :
    LogSync (Singleton.call ctorErr cls args s).2 := by
  rcases h1 : lookupReg s._instance cls with _ | inst0
  · rcases h2 : ctorErr cls args with _ | e
    · rw [singleton_call_miss_ok h1 h2]
      intro k
      by_cases hk : cls = k
      · subst hk
        have h0 := hs cls
        rw [h1] at h0
        simp at h0
        have hnew : lookupReg (s._instance ++ [(cls, ⟨cls, s.nextId⟩)]) cls
            = some ⟨cls, s.nextId⟩ := by
          rw [lookupReg_append_right h1]
          simp [lookupReg]
        simp [List.count_append, h0, hnew]
      · have h0 := hs k
        have hcount : (s.constructedLog ++ [cls]).count k = s.constructedLog.count k := by
          simp [List.count_append, List.count_singleton]
          intro hkc
          exact absurd hkc hk
        rcases h3 : lookupReg s._instance k with _ | v
        · have hnew : lookupReg (s._instance ++ [(cls, ⟨cls, s.nextId⟩)]) k = none := by
            rw [lookupReg_append_right h3]
            simp [lookupReg, hk]
          rw [h3] at h0
          simp only [hcount, hnew]
          simpa using h0
        · have hnew : lookupReg (s._instance ++ [(cls, ⟨cls, s.nextId⟩)]) k
              = some v := lookupReg_append_left h3
          rw [h3] at h0
          simp only [hcount, hnew]
          simpa using h0
    · rw [singleton_call_miss_err h1 h2]
      exact hs
  · rw [singleton_call_hit args h1]
    exact hs

theorem logSync_runCalls (ctorErr : ClassId → Args → Option String)
    (events : List CallEvent) {s : PState} (hs : LogSync s) :
    LogSync (runCalls ctorErr events s) := by
  induction events generalizing s with
  | nil => exact hs
  | cons e rest ih => exact ih (logSync_call hs)

theorem singleton_call_ok_cls {ctorErr : ClassId → Args → Option String}
    {cls : ClassId} {args : Args} {s s1 : PState} {inst : Instance}
    (hs : RegConsistent s)
    (h : Singleton.call ctorErr cls args s = (Except.ok inst, s1)) :
    inst.cls = cls := by
  rcases h1 : lookupReg s._instance cls with _ | inst0
  · rcases h2 : ctorErr cls args with _ | e
    · rw [singleton_call_miss_ok h1 h2] at h
      obtain ⟨hi, _⟩ := Prod.mk.injEq .. ▸ h
      cases hi
      rfl
    · rw [singleton_call_miss_err h1 h2] at h
      simp at h
  · rw [singleton_call_hit args h1] at h
    obtain ⟨hi, _⟩ := Prod.mk.injEq .. ▸ h
    cases hi
    exact hs (cls, inst) (lookupReg_mem h1)

/-! ### Claim theorems -/

/-- C1: `Singleton.__call__` (get_or_create): if the identity is absent from
the registry, the real constructor is invoked with the call's arguments, the
result is stored keyed by the identity and returned; if the identity is
present, the arguments are ignored entirely and the previously stored
instance is returned with the state unchanged. -/
theorem singleton_call_get_or_create (ctorErr : ClassId → Args → Option String)
    (cls : ClassId) (args : Args) (s : PState) :
    (∀ inst : Instance, lookupReg s._instance cls = some inst →
        Singleton.call ctorErr cls args s = (Except.ok inst, s))
    ∧ (lookupReg s._instance cls = none →
        ∀ (inst : Instance) (s1 : PState),
          type_call ctorErr cls args s = (Except.ok inst, s1) →
          Singleton.call ctorErr cls args s
              = (Except.ok inst,
                 ⟨s1._instance ++ [(cls, inst)], s1.nextId, s1.constructedLog⟩)
            ∧ lookupReg (s1._instance ++ [(cls, inst)]) cls = some inst) := by
  constructor
  · intro inst h
    exact singleton_call_hit args h
  · intro habs inst s1 htc
    rcases h2 : ctorErr cls args with _ | e
    · simp [type_call, h2] at htc
      obtain ⟨hi, hs⟩ := htc
      subst hi
      subst hs
      refine ⟨singleton_call_miss_ok habs h2, ?_⟩
      show lookupReg (s._instance ++ [(cls, ⟨cls, s.nextId⟩)]) cls = _
      rw [lookupReg_append_right habs]
      simp [lookupReg]
    · simp [type_call, h2] at htc

/-- C2: at most one instance is ever constructed per class identity in any
run starting at interpreter start; in the concrete scenario of constructing
`NetworkDriver` three times in sequence (first with no arguments, then with
two different argument lists) all three returned references are identical and
the construction counter shows exactly 1 invocation. -/
theorem singleton_at_most_one_construction :
    (∀ (ctorErr : ClassId → Args → Option String) (events : List CallEvent)
        (k : ClassId),
      (runCalls ctorErr events initState).constructedLog.count k ≤ 1)
    ∧ (Singleton.call defaultCtorErr NetworkDriver.classId [] initState).1
        = Except.ok ⟨NetworkDriver.classId, 0⟩
    ∧ (Singleton.call defaultCtorErr NetworkDriver.classId [1]
        (Singleton.call defaultCtorErr NetworkDriver.classId [] initState).2).1
        = Except.ok ⟨NetworkDriver.classId, 0⟩
    ∧ (Singleton.call defaultCtorErr NetworkDriver.classId [2]
        (Singleton.call defaultCtorErr NetworkDriver.classId [1]
          (Singleton.call defaultCtorErr NetworkDriver.classId [] initState).2).2).1
        = Except.ok ⟨NetworkDriver.classId, 0⟩
    ∧ (runCalls defaultCtorErr
        [⟨NetworkDriver.classId, []⟩, ⟨NetworkDriver.classId, [1]⟩,
         ⟨NetworkDriver.classId, [2]⟩] initState).constructedLog.count
        NetworkDriver.classId = 1 := by
  refine ⟨?_, rfl, rfl, rfl, by decide⟩
  intro ctorErr events k
  have h := logSync_runCalls ctorErr events logSync_init k
  rw [h]
  split <;> omega

/-- C3: idempotence with respect to identity — two successful construction
requests for the same class in the same process, separated by arbitrary other
calls and carrying arbitrary (possibly different) arguments, return the same
instance. -/
theorem singleton_idempotent_per_identity
    (ctorErr : ClassId → Args → Option String) (k : ClassId)
    (args1 args2 : Args) (events : List CallEvent) (s sA sB : PState)
    (i1 i2 : Instance)
    (h1 : Singleton.call ctorErr k args1 s = (Except.ok i1, sA))
    (h2 : Singleton.call ctorErr k args2 (runCalls ctorErr events sA)
        = (Except.ok i2, sB)) :
    i1 = i2 := by
  have hA := singleton_call_ok_lookup h1
  have hP := runCalls_preserves_lookup ctorErr events hA
  rw [singleton_call_hit args2 hP] at h2
  simp at h2
  exact h2.1

/-- C4: construction requests for two distinct class identities, each made in
some reachable process state, never return the same instance. -/
theorem singleton_distinct_identities_distinct_instances
    (ctorErr : ClassId → Args → Option String)
    (events1 events2 : List CallEvent) (k1 k2 : ClassId)
    (args1 args2 : Args) (i1 i2 : Instance) (s1 s2 : PState)
    (hne : k1 ≠ k2)
    (h1 : Singleton.call ctorErr k1 args1 (runCalls ctorErr events1 initState)
        = (Except.ok i1, s1))
    (h2 : Singleton.call ctorErr k2 args2 (runCalls ctorErr events2 initState)
        = (Except.ok i2, s2)) :
    i1 ≠ i2 := by
  have hc1 := singleton_call_ok_cls
    (regConsistent_runCalls ctorErr events1 regConsistent_init) h1
  have hc2 := singleton_call_ok_cls
    (regConsistent_runCalls ctorErr events2 regConsistent_init) h2
  intro he
  apply hne
  rw [← hc1, ← hc2, he]

/-- C5: on the first call for an identity, the call raises error `e` exactly
when the underlying constructor raises `e` on those arguments — the error
propagates unchanged, the registry adds no validation and raises no error of
its own. -/
theorem singleton_first_call_error_propagates
    (ctorErr : ClassId → Args → Option String) (cls : ClassId) (args : Args)
    (s : PState) (e : String)
    (habs : lookupReg s._instance cls = none) :
    Singleton.call ctorErr cls args s = (Except.error e, s)
      ↔ ctorErr cls args = some e := by
  constructor
  · intro h
    rcases h2 : ctorErr cls args with _ | e'
    · rw [singleton_call_miss_ok habs h2] at h
      simp at h
    · rw [singleton_call_miss_err habs h2] at h
      simp at h
      exact congrArg some h
  · intro h
    exact singleton_call_miss_err habs h

/-- C6: once an identity is registered, every later call succeeds and returns
the stored instance for arbitrary arguments — the arguments are discarded
before they could reach the constructor, so no argument mismatch can fail. -/
theorem singleton_later_calls_never_fail
    (ctorErr : ClassId → Args → Option String) (cls : ClassId) (args : Args)
    (s : PState) (inst : Instance)
    (hpres : lookupReg s._instance cls = some inst) :
    Singleton.call ctorErr cls args s = (Except.ok inst, s) :=
  singleton_call_hit args hpres

/-- C7: the registry grows monotonically — an existing entry survives any
sequence of further calls unremoved and unreplaced, and an entry is created
lazily by the first successful construction of its class. -/
theorem singleton_registry_monotone (ctorErr : ClassId → Args → Option String) :
    (∀ (events : List CallEvent) (s : PState) (k : ClassId) (v : Instance),
        lookupReg s._instance k = some v →
        lookupReg (runCalls ctorErr events s)._instance k = some v)
    ∧ (∀ (cls : ClassId) (args : Args) (s : PState) (i : Instance) (s1 : PState),
        lookupReg s._instance cls = none →
        Singleton.call ctorErr cls args s = (Except.ok i, s1) →
        lookupReg s1._instance cls = some i) :=
  ⟨fun events _ _ _ h => runCalls_preserves_lookup ctorErr events h,
   fun _ _ _ _ _ _ h => singleton_call_ok_lookup h⟩

/-- C8: the factory methods are pure functions from the input label to the
output label with no shared state — an invocation's output does not depend on
the process state it runs in, and the invocation leaves that state
unchanged. -/
theorem factory_create_country_pure (country : String) (s t : PState) :
    (FiatCurrencyFactory.invoke country s).1
        = (FiatCurrencyFactory.invoke country t).1
    ∧ (FiatCurrencyFactory.invoke country s).2 = s
    ∧ (VirtualCurrencyFactory.invoke country s).1
        = (VirtualCurrencyFactory.invoke country t).1
    ∧ (VirtualCurrencyFactory.invoke country s).2 = s :=
  ⟨rfl, rfl, rfl, rfl⟩

/-- C9: if the underlying constructor raises on the first call for an
identity, the call propagates the error with the state — in particular the
registry — unchanged, and a subsequent call for that identity attempts
construction again (here: a retry with accepted arguments constructs and
registers a fresh instance). -/
theorem singleton_registry_atomic_on_failure
    (ctorErr : ClassId → Args → Option String) (cls : ClassId) (args : Args)
    (s : PState) (e : String)
    (habs : lookupReg s._instance cls = none)
    (herr : ctorErr cls args = some e) :
    Singleton.call ctorErr cls args s = (Except.error e, s)
    ∧ ∀ args2 : Args, ctorErr cls args2 = none →
        Singleton.call ctorErr cls args2 (Singleton.call ctorErr cls args s).2
          = (Except.ok ⟨cls, s.nextId⟩,
             ⟨s._instance ++ [(cls, ⟨cls, s.nextId⟩)], s.nextId + 1,
              s.constructedLog ++ [cls]⟩) := by
  have h1 := singleton_call_miss_err habs herr
  refine ⟨h1, fun args2 hok => ?_⟩
  rw [h1]
  exact singleton_call_miss_ok habs hok

/-- C10: key-value consistency — in every reachable state, each entry of the
single shared registry maps a class identity to an instance constructed by
that very class. -/
theorem singleton_registry_key_value_consistent
    (ctorErr : ClassId → Args → Option String) (events : List CallEvent) :
    ∀ p ∈ (runCalls ctorErr events initState)._instance,
      (p : ClassId × Instance).2.cls = p.1 :=
  regConsistent_runCalls ctorErr events regConsistent_init

/-! ### Witnesses -/

theorem singleton_call_get_or_create_witness :
    Singleton.call defaultCtorErr "NetworkDriver" [] initState
        = (Except.ok ⟨"NetworkDriver", 0⟩,
           ⟨[("NetworkDriver", ⟨"NetworkDriver", 0⟩)], 1, ["NetworkDriver"]⟩)
    ∧ lookupReg [("NetworkDriver", ⟨"NetworkDriver", 0⟩)] "NetworkDriver"
        = some ⟨"NetworkDriver", 0⟩ := by
  have h := (singleton_call_get_or_create defaultCtorErr "NetworkDriver" []
      initState).2 rfl ⟨"NetworkDriver", 0⟩ ⟨[], 1, ["NetworkDriver"]⟩ rfl
  exact ⟨h.1, h.2⟩

theorem singleton_idempotent_per_identity_witness :
    (⟨"NetworkDriver", 0⟩ : Instance) = ⟨"NetworkDriver", 0⟩ :=
  singleton_idempotent_per_identity defaultCtorErr "NetworkDriver" [] [1] []
    initState ⟨[("NetworkDriver", ⟨"NetworkDriver", 0⟩)], 1, ["NetworkDriver"]⟩
    ⟨[("NetworkDriver", ⟨"NetworkDriver", 0⟩)], 1, ["NetworkDriver"]⟩
    ⟨"NetworkDriver", 0⟩ ⟨"NetworkDriver", 0⟩ rfl rfl

theorem singleton_distinct_identities_witness :
    (⟨"A", 0⟩ : Instance) ≠ ⟨"B", 0⟩ :=
  singleton_distinct_identities_distinct_instances defaultCtorErr [] [] "A" "B"
    [] [] ⟨"A", 0⟩ ⟨"B", 0⟩
    ⟨[("A", ⟨"A", 0⟩)], 1, ["A"]⟩ ⟨[("B", ⟨"B", 0⟩)], 1, ["B"]⟩
    (by decide) rfl rfl

theorem singleton_first_call_error_propagates_witness :
    Singleton.call defaultCtorErr "NetworkDriver" [1] initState
      = (Except.error "TypeError", initState) :=
  (singleton_first_call_error_propagates defaultCtorErr "NetworkDriver" [1]
    initState "TypeError" rfl).mpr rfl

theorem singleton_later_calls_never_fail_witness :
    Singleton.call defaultCtorErr "NetworkDriver" [5]
        ⟨[("NetworkDriver", ⟨"NetworkDriver", 0⟩)], 1, ["NetworkDriver"]⟩
      = (Except.ok ⟨"NetworkDriver", 0⟩,
         ⟨[("NetworkDriver", ⟨"NetworkDriver", 0⟩)], 1, ["NetworkDriver"]⟩) :=
  singleton_later_calls_never_fail defaultCtorErr "NetworkDriver" [5]
    ⟨[("NetworkDriver", ⟨"NetworkDriver", 0⟩)], 1, ["NetworkDriver"]⟩
    ⟨"NetworkDriver", 0⟩ rfl

theorem singleton_registry_monotone_witness :
    lookupReg (runCalls defaultCtorErr [⟨"A", []⟩]
        ⟨[("NetworkDriver", ⟨"NetworkDriver", 0⟩)], 1, ["NetworkDriver"]⟩)._instance
      "NetworkDriver" = some ⟨"NetworkDriver", 0⟩ :=
  (singleton_registry_monotone defaultCtorErr).1 [⟨"A", []⟩]
    ⟨[("NetworkDriver", ⟨"NetworkDriver", 0⟩)], 1, ["NetworkDriver"]⟩
    "NetworkDriver" ⟨"NetworkDriver", 0⟩ rfl

theorem singleton_registry_atomic_on_failure_witness :
    Singleton.call defaultCtorErr "NetworkDriver" [1] initState
        = (Except.error "TypeError", initState)
    ∧ Singleton.call defaultCtorErr "NetworkDriver" []
        (Singleton.call defaultCtorErr "NetworkDriver" [1] initState).2
        = (Except.ok ⟨"NetworkDriver", 0⟩,
           ⟨[("NetworkDriver", ⟨"NetworkDriver", 0⟩)], 1, ["NetworkDriver"]⟩) := by
  have h := singleton_registry_atomic_on_failure defaultCtorErr "NetworkDriver"
    [1] initState "TypeError" rfl rfl
  exact ⟨h.1, h.2 [] rfl⟩

theorem singleton_registry_key_value_consistent_witness :
    Instance.cls ⟨"NetworkDriver", 0⟩ = "NetworkDriver" :=
  singleton_registry_key_value_consistent defaultCtorErr
    [⟨"NetworkDriver", []⟩] ("NetworkDriver", ⟨"NetworkDriver", 0⟩) (by decide)
